import Mathlib

/-!
# Verification of the statistical-feature-builder core

A shallow embedding, in Lean 4, of the statistical core of the
`statistical-feature-builder` service:

* `app/core/statistics.py` — `StatisticalEngine` with
  `calculate_descriptive_statistics`, `detect_outliers`, `analyze_trends`,
  `test_normality`, `classify_distribution`, `calculate_correlations`;
* `app/core/processor.py` — `DataProcessor` with `extract_values`,
  `mask_sensitive_fields`, `validate_data`, `process_request`,
  `process_multi_dataset`.

Modelling conventions:

* Python floats are idealised as exact numbers.  Every quantity that is a
  rational function of the input data is modelled in `ℚ` (and stays
  computable); quantities that genuinely involve a square root
  (standard deviation, z-scores, the skewness denominator `m2 ** 1.5`)
  are modelled in `ℝ` with `Real.sqrt`, which forces the few definitions
  that store them to be `noncomputable`.
* The float special values NaN and ±Infinity, which the Validator must
  reject, are modelled by the algebraic type `FloatVal`.
* External library calls that are not code of this repository are handled
  as follows: `numpy` / `scipy` formulas with a closed form (`mean`,
  `var(ddof=1)`, `percentile`, `skew`, `kurtosis`, the ordinary
  least-squares fit behind `sklearn.LinearRegression`) are embedded by
  that closed form; the opaque numerical routines `scipy.stats.shapiro`,
  `pearsonr` and `spearmanr` are abstracted as function parameters, so
  every theorem about them holds for an arbitrary implementation.
-/

namespace StatBuilder

/-! ## Basic numeric helpers (numpy formulas on a rational sample) -/

/-- `np.mean(data)`: the arithmetic mean.  (`0` on the empty list, which the
validated pipeline never passes in.) -/
def npMean (l : List ℚ) : ℚ := l.sum / l.length

/-- The `k`-th central moment `m_k = (1/n) * Σ (x - mean)^k`, the building
block `scipy.stats.skew` and `scipy.stats.kurtosis` are defined from. -/
def centralMoment (l : List ℚ) (k : ℕ) : ℚ :=
  (l.map (fun x => (x - npMean l) ^ k)).sum / l.length

/-- `np.var(data, ddof=1)`: the sample variance `Σ (x - mean)^2 / (n - 1)`. -/
def sampleVar (l : List ℚ) : ℚ :=
  (l.map (fun x => (x - npMean l) ^ 2)).sum / ((l.length : ℚ) - 1)

/-- `np.var(data)` with the default `ddof=0`: the population variance.
Used only to state that the engine does *not* compute this one. -/
def popVar (l : List ℚ) : ℚ := centralMoment l 2

/-- `np.std(data, ddof=1)`: the sample standard deviation, the square root
of `sampleVar`. -/
noncomputable def sampleStd (l : List ℚ) : ℝ := Real.sqrt (sampleVar l)

/-- `np.min(data)`: the smallest element (`0` on the empty list, where
numpy raises instead; the validated pipeline never passes it in). -/
def npMin (l : List ℚ) : ℚ := (l.min?).getD 0

/-- `np.max(data)`: the largest element (same empty-list convention). -/
def npMax (l : List ℚ) : ℚ := (l.max?).getD 0

/-- `np.sort(data)`: the data in ascending order. -/
def sortedData (l : List ℚ) : List ℚ := l.insertionSort (· ≤ ·)

/-- `np.percentile(data, q)` with the default linear-interpolation method:
with `s` the sorted data and `h = (n - 1) * q / 100`, interpolate between
`s[⌊h⌋]` and `s[⌊h⌋ + 1]` with fraction `h - ⌊h⌋` (clamping the upper
index to the last element, as numpy does at `q = 100`). -/
def percentile (l : List ℚ) (q : ℚ) : ℚ :=
  let s := sortedData l
  let h : ℚ := ((s.length : ℚ) - 1) * q / 100
  let i : ℕ := (⌊h⌋).toNat
  let lo := s.getD i 0
  let hi := s.getD (i + 1) lo
  lo + (h - (i : ℚ)) * (hi - lo)

/-- The interpolation position `h = (n - 1) * q / 100` of `percentile`,
named for the proofs below. -/
def pH (l : List ℚ) (q : ℚ) : ℚ := (((sortedData l).length : ℚ) - 1) * q / 100

/-- The lower interpolation index `⌊h⌋` of `percentile`, named for the
proofs below. -/
def pI (l : List ℚ) (q : ℚ) : ℕ := (⌊pH l q⌋).toNat

/-- `np.median(data)`: numpy's median, which coincides with the
50th percentile under linear interpolation (midpoint of the two middle
order statistics for even `n`, the middle one for odd `n`). -/
def npMedian (l : List ℚ) : ℚ := percentile l 50

/-- `scipy.stats.skew(data)` with the default `bias=True`: the
Fisher-Pearson coefficient `g1 = m3 / m2 ** 1.5` (no bias correction).
For `m2 ≥ 0`, `m2 ** 1.5 = (√m2)³`. -/
noncomputable def skew (l : List ℚ) : ℝ :=
  (centralMoment l 3 : ℝ) / Real.sqrt (centralMoment l 2) ^ 3

/-- `scipy.stats.kurtosis(data)` with the defaults `fisher=True, bias=True`:
the excess kurtosis `g2 = m4 / m2² - 3` (no bias correction). -/
def kurtosis (l : List ℚ) : ℚ :=
  centralMoment l 4 / (centralMoment l 2) ^ 2 - 3

/-! ## Spec-side definitions of the bias-adjusted shape statistics

The spec asks for the "standard (Fisher-Pearson, bias-adjusted)"
definitions of skewness and kurtosis.  These are the adjusted versions
`G1 = √(n(n-1))/(n-2) * g1` and
`G2 = (n-1)/((n-2)(n-3)) * ((n+1) * g2 + 6)`; they are written here from
the spec's words, to be compared with what the engine computes. -/

/-- The bias-adjusted Fisher-Pearson skewness coefficient
`G1 = √(n(n-1)) / (n-2) * g1` (what `scipy.stats.skew(data, bias=False)`
would return). -/
noncomputable def adjustedSkew (l : List ℚ) : ℝ :=
  Real.sqrt ((l.length : ℝ) * ((l.length : ℝ) - 1)) / ((l.length : ℝ) - 2) * skew l

/-- The bias-adjusted excess kurtosis
`G2 = (n-1)/((n-2)(n-3)) * ((n+1) * g2 + 6)` (what
`scipy.stats.kurtosis(data, bias=False)` would return). -/
def adjustedKurtosis (l : List ℚ) : ℚ :=
  ((l.length : ℚ) - 1) / (((l.length : ℚ) - 2) * ((l.length : ℚ) - 3)) *
    (((l.length : ℚ) + 1) * kurtosis l + 6)

/-! ## `calculate_descriptive_statistics` -/

/-- The `Statistics` record of `app/models/schemas.py`, the dictionary
returned by `calculate_descriptive_statistics`.  Fields that are exact
rational functions of the data are `ℚ`; `std_dev` and `skewness` involve
square roots and are `ℝ`. -/
structure Statistics where
  count : ℕ
  mean : ℚ
  median : ℚ
  min : ℚ
  max : ℚ
  std_dev : ℝ
  variance : ℚ
  q1 : ℚ
  q3 : ℚ
  iqr : ℚ
  skewness : ℝ
  kurtosis : ℚ

/-- `StatisticalEngine.calculate_descriptive_statistics`
(`app/core/statistics.py`, lines 24-63). -/
noncomputable def calculateDescriptiveStatistics (data : List ℚ) : Statistics :=
  let mean_val := npMean data
  let median_val := npMedian data
  let std_val := sampleStd data      -- np.std(data, ddof=1), sample std dev
  let var_val := sampleVar data      -- np.var(data, ddof=1), sample variance
  let q1 := percentile data 25
  let q3 := percentile data 75
  let iqr := q3 - q1
  let skewness := skew data
  let kurt := kurtosis data
  { count := data.length
    mean := mean_val
    median := median_val
    min := npMin data
    max := npMax data
    std_dev := std_val
    variance := var_val
    q1 := q1
    q3 := q3
    iqr := iqr
    skewness := skewness
    kurtosis := kurt }

/-! ## `detect_outliers` -/

/-- `self.outlier_threshold` (engine constructor): z-score threshold. -/
def outlierThreshold : ℚ := 3

/-- `self.extreme_threshold` (engine constructor): z-score threshold for
extreme outliers.  Independently configurable in the source, but
initialised to the same value `3.0`. -/
def extremeThreshold : ℚ := 3

/-- The `Outlier` record of `app/models/schemas.py`: one entry of the list
returned by `detect_outliers`. -/
structure Outlier where
  index : ℕ
  value : ℚ
  z_score : ℝ
  is_extreme : Bool
  timestamp : Option String

/-- The timestamp attached to the outlier at position `idx`:
`timestamps[idx]` when `timestamps` is truthy (supplied and non-empty)
and `idx` is in range, else `None`.  An entry of the timestamp list may
itself be `None` (the Extractor keeps `None` for records without one). -/
def timestampAt (timestamps : Option (List (Option String))) (idx : ℕ) :
    Option String :=
  match timestamps with
  | none => none
  | some ts => if ¬ts.isEmpty ∧ idx < ts.length then ts.getD idx none else none

open Classical in
/-- `StatisticalEngine.detect_outliers` (`app/core/statistics.py`,
lines 68-115): z-score method over `enumerate(zip(data, z_scores))`. -/
noncomputable def detectOutliers (data : List ℚ)
    (timestamps : Option (List (Option String)) := none) : List Outlier :=
  let mean := npMean data
  let std := sampleStd data
  if std = 0 then []          -- no variance, no outliers
  else
    data.enum.filterMap fun p =>
      let z : ℝ := ((p.2 : ℝ) - (mean : ℝ)) / std
      if (outlierThreshold : ℝ) < |z| then
        some { index := p.1
               value := p.2
               z_score := z
               is_extreme := decide ((extremeThreshold : ℝ) < |z|)
               timestamp := timestampAt timestamps p.1 }
      else none

/-! ## `analyze_trends` -/

/-- The `Trends` record of `app/models/schemas.py`. -/
structure Trends where
  day_over_day_pct : Option ℚ
  month_over_month_pct : Option ℚ
  regression_slope : ℚ
  regression_intercept : ℚ
  r_squared : ℚ
  forecast_next_period : ℚ
  trend_direction : String

/-- The mean of the regressor indices `0, 1, …, n-1`, that is `(n-1)/2`. -/
def idxMean (n : ℕ) : ℚ := ((List.range n).map (fun i => (i : ℚ))).sum / n

/-- The ordinary-least-squares slope of `data` on the integer indices
`0 … n-1`: `Σ (i - x̄)(yᵢ - ȳ) / Σ (i - x̄)²`.  This closed form is what
`sklearn.LinearRegression().fit(X, y)` computes for a single regressor
(the unique least-squares solution). -/
def olsSlope (data : List ℚ) : ℚ :=
  let xbar := idxMean data.length
  let ybar := npMean data
  (data.enum.map (fun p => ((p.1 : ℚ) - xbar) * (p.2 - ybar))).sum /
    ((List.range data.length).map (fun i => ((i : ℚ) - xbar) ^ 2)).sum

/-- The ordinary-least-squares intercept `ȳ - slope * x̄`. -/
def olsIntercept (data : List ℚ) : ℚ :=
  npMean data - olsSlope data * idxMean data.length

/-- `model.score(X, y)`: the coefficient of determination
`R² = 1 - Σ (yᵢ - ŷᵢ)² / Σ (yᵢ - ȳ)²`. -/
def olsRSquared (data : List ℚ) : ℚ :=
  let ybar := npMean data
  let fit := fun i : ℕ => olsIntercept data + olsSlope data * i
  1 - (data.enum.map (fun p => (p.2 - fit p.1) ^ 2)).sum /
        (data.map (fun y => (y - ybar) ^ 2)).sum

/-- `StatisticalEngine.analyze_trends` (`app/core/statistics.py`,
lines 117-189).  `data[-1]`/`data[-2]` are `data[n-1]`/`data[n-2]`;
`data[-30:]` is `drop (n-30)`; `data[-60:-30]` is `(drop (n-60)).take 30`. -/
def analyzeTrends (data : List ℚ) : Trends :=
  let n := data.length
  let day_over_day : Option ℚ :=
    if 2 ≤ n then
      let last_value := data.getD (n - 1) 0
      let prev_value := data.getD (n - 2) 0
      if prev_value ≠ 0 then some ((last_value - prev_value) / prev_value * 100)
      else none
    else none
  let month_over_month : Option ℚ :=
    if 30 ≤ n then
      let recent_mean := npMean (data.drop (n - 30))
      if 60 ≤ n then
        let prev_mean := npMean ((data.drop (n - 60)).take 30)
        if prev_mean ≠ 0 then some ((recent_mean - prev_mean) / prev_mean * 100)
        else none
      else none
    else none
  let slope := olsSlope data
  let intercept := olsIntercept data
  let forecast := intercept + slope * n   -- model.predict([[n]])
  let trend_direction : String :=
    if |slope| < 1 / 100 * npMean data then "stable"
    else if 0 < slope then "upward"
    else "downward"
  { day_over_day_pct := day_over_day
    month_over_month_pct := month_over_month
    regression_slope := slope
    regression_intercept := intercept
    r_squared := olsRSquared data
    forecast_next_period := forecast
    trend_direction := trend_direction }

/-! ## `test_normality` and `classify_distribution`

`scipy.stats.shapiro` is an opaque numerical routine with no closed form;
it is abstracted as a parameter `shapiro : List ℚ → ℝ` giving the p-value,
so the theorems below hold for an arbitrary implementation. -/

open Classical in
/-- `StatisticalEngine.test_normality` (`app/core/statistics.py`,
lines 191-216), with the Shapiro-Wilk p-value abstracted as `shapiro`. -/
noncomputable def testNormality (shapiro : List ℚ → ℝ) (data : List ℚ) :
    ℝ × Bool :=
  if data.length < 3 then (1, false)   -- not enough data for the test
  else
    let p_value := shapiro data
    (p_value, decide ((5 : ℝ) / 100 < p_value))

open Classical in
/-- `StatisticalEngine.classify_distribution` (`app/core/statistics.py`,
lines 218-252): the if/elif classification chain.  (The `except` fallback
to `"unknown"` is unreachable in the embedding, whose arithmetic is
total.) -/
noncomputable def classifyDistribution (data : List ℚ) (p_value : ℝ) :
    String :=
  if (5 : ℝ) / 100 < p_value then "normal"
  else if |skew data| < 1 / 2 ∧ |(kurtosis data : ℚ)| < 1 / 2 then
    "approximately_normal"
  else if 1 < skew data then "right_skewed"
  else if skew data < -1 then "left_skewed"
  else if 3 < kurtosis data then "heavy_tailed"
  else if kurtosis data < -1 then "light_tailed"
  else "non_normal"

/-- The spec's reading of §4.6: a priority-ordered rule list, scanned for
the first condition that holds, with a default label.  Written from the
spec's words to compare with the source's if/elif chain. -/
noncomputable def firstLabel (rules : List (Prop × String)) (dflt : String) :
    String :=
  match rules with
  | [] => dflt
  | (c, s) :: rest =>
      haveI := Classical.propDecidable c
      if c then s else firstLabel rest dflt

/-- Modelled from the spec (§4.6 "Distribution classification, in priority
order"): the classification as a first-match scan of the spec's rules. -/
noncomputable def specClassify (data : List ℚ) (p_value : ℝ) : String :=
  firstLabel
    [((5 : ℝ) / 100 < p_value, "normal"),
     (|skew data| < 1 / 2 ∧ |(kurtosis data : ℚ)| < 1 / 2,
       "approximately_normal"),
     (1 < skew data, "right_skewed"),
     (skew data < -1, "left_skewed"),
     (3 < kurtosis data, "heavy_tailed"),
     (kurtosis data < -1, "light_tailed")]
    "non_normal"

/-! ## `calculate_correlations`

`scipy.stats.pearsonr` and `scipy.stats.spearmanr` each return a
(coefficient, p-value) pair; both routines are abstracted as parameters. -/

/-- The `Correlation` record of `app/models/schemas.py`. -/
structure Correlation where
  coefficient : ℝ
  p_value : ℝ
  is_significant : Bool

/-- The per-pair value of the correlation dictionary: the `"pearson"` and
`"spearman"` sub-dictionaries. -/
structure PairCorrelation where
  pearson : Correlation
  spearman : Correlation

/-- Assignment `m[key] = value` on a Python dict modelled as an
insertion-ordered association list: an existing entry with the key is
overwritten in place (keeping its first-insertion position), a new key
is appended at the end. -/
def dictInsert {α : Type _} (m : List (String × α)) (key : String)
    (value : α) : List (String × α) :=
  if m.any (fun p => decide (p.1 = key)) then
    m.map (fun p => if p.1 = key then (key, value) else p)
  else m ++ [(key, value)]

open Classical in
/-- `StatisticalEngine.calculate_correlations` (`app/core/statistics.py`,
lines 254-311).  The returned Python dict is an insertion-ordered
association list built by `dictInsert` (so a later pair whose key
`"{name1}_vs_{name2}"` collides with an earlier one overwrites that
entry, as `correlations[key] = {...}` does); the nested loops
`for i in range(n): for j in range(i+1, n)` enumerate the assignments in
the order of the `flatMap` below (`(List.range n).drop (i+1)` is
`[i+1, …, n-1]`). -/
noncomputable def calculateCorrelations
    (pearsonr spearmanr : List ℚ → List ℚ → ℝ × ℝ)
    (datasets : List (String × List ℚ)) : List (String × PairCorrelation) :=
  if datasets.length < 2 then []
  else
    ((List.range datasets.length).flatMap fun i =>
      ((List.range datasets.length).drop (i + 1)).map fun j =>
        let name1 := (datasets.getD i ("", [])).1
        let name2 := (datasets.getD j ("", [])).1
        let min_len := min (datasets.getD i ("", [])).2.length
          (datasets.getD j ("", [])).2.length
        let data1 := (datasets.getD i ("", [])).2.take min_len
        let data2 := (datasets.getD j ("", [])).2.take min_len
        let pearson := pearsonr data1 data2
        let spearman := spearmanr data1 data2
        (name1 ++ "_vs_" ++ name2,
         { pearson :=
             { coefficient := pearson.1
               p_value := pearson.2
               is_significant := decide (pearson.2 < (5 : ℝ) / 100) }
           spearman :=
             { coefficient := spearman.1
               p_value := spearman.2
               is_significant := decide (spearman.2 < (5 : ℝ) / 100) } })).foldl
      (fun correlations kv => dictInsert correlations kv.1 kv.2) []

/-- The z-score of a value `x` against the sample: `(x - mean) / std`,
with the sample standard deviation in the denominator (spec §4.4 and the
glossary). -/
noncomputable def zScore (data : List ℚ) (x : ℚ) : ℝ :=
  ((x : ℝ) - (npMean data : ℝ)) / sampleStd data

open Classical in
/-- The correlation entry the spec's §4.7 prescribes for the pair of
datasets at positions `i < j`: key `"{nameA}_vs_{nameB}"`, both series
truncated to the shorter length from index 0, coefficient and p-value
from each routine, significance `p < 0.05`. -/
noncomputable def corrEntry (pearsonr spearmanr : List ℚ → List ℚ → ℝ × ℝ)
    (datasets : List (String × List ℚ)) (i j : ℕ) :
    String × PairCorrelation :=
  let name1 := (datasets.getD i ("", [])).1
  let name2 := (datasets.getD j ("", [])).1
  let min_len := min (datasets.getD i ("", [])).2.length
    (datasets.getD j ("", [])).2.length
  let data1 := (datasets.getD i ("", [])).2.take min_len
  let data2 := (datasets.getD j ("", [])).2.take min_len
  let pearson := pearsonr data1 data2
  let spearman := spearmanr data1 data2
  (name1 ++ "_vs_" ++ name2,
   { pearson :=
       { coefficient := pearson.1
         p_value := pearson.2
         is_significant := decide (pearson.2 < (5 : ℝ) / 100) }
     spearman :=
       { coefficient := spearman.1
         p_value := spearman.2
         is_significant := decide (spearman.2 < (5 : ℝ) / 100) } })

/-- The unordered index pairs `i < j` below `n`, in the first-seen
(lexicographic) iteration order of the source's nested loops. -/
def pairIndices (n : ℕ) : List (ℕ × ℕ) :=
  (List.product (List.range n) (List.range n)).filter
    (fun p => decide (p.1 < p.2))

/-- The correlation entries §4.7 prescribes, one per unordered pair in
first-seen order (before the dict assignment that can merge entries
with colliding keys). -/
noncomputable def pairEntries (pearsonr spearmanr : List ℚ → List ℚ → ℝ × ℝ)
    (datasets : List (String × List ℚ)) : List (String × PairCorrelation) :=
  (pairIndices datasets.length).map
    (fun p => corrEntry pearsonr spearmanr datasets p.1 p.2)

/-! ## The processor (`app/core/processor.py`)

The Extractor builds a float array from heterogeneous records; the float
special values the Validator must reject are modelled algebraically. -/

/-- A Python float as the Validator sees it: a finite value, NaN, or
±Infinity. -/
inductive FloatVal where
  | finite (q : ℚ)
  | nan
  | inf
  | ninf
deriving DecidableEq, Repr

/-- `np.isnan` on one value. -/
def FloatVal.isNan : FloatVal → Bool
  | .nan => true
  | _ => false

/-- `np.isinf` on one value. -/
def FloatVal.isInf : FloatVal → Bool
  | .inf => true
  | .ninf => true
  | _ => false

/-- The rational carried by a finite value (junk `0` on NaN/±Infinity,
which the Validator has excluded before any statistic is computed). -/
def FloatVal.toRat : FloatVal → ℚ
  | .finite q => q
  | _ => 0

/-- A candidate `value` field before numeric conversion: either a value
`float(...)` converts (to a finite float, NaN or ±Infinity), or one the
conversion rejects with `ValueError`/`TypeError` (the record is then
dropped with a warning). -/
inductive RawVal where
  | num (x : FloatVal)
  | nonNumeric
deriving DecidableEq

/-- One element of the request's `data` array: a mapping (of which the
processor reads the optional `value` and `timestamp` fields) or a bare
scalar. -/
inductive RawPoint where
  | record (value : Option RawVal) (timestamp : Option String)
  | scalar (value : RawVal)
deriving DecidableEq

/-- `DataProcessor.extract_values` (`app/core/processor.py`, lines 29-59):
values and timestamps are appended in lockstep, and a record whose value
is missing or fails numeric conversion contributes to neither list. -/
def extractValues (data : List RawPoint) :
    List FloatVal × List (Option String) :=
  match data with
  | [] => ([], [])
  | point :: rest =>
      let (values, timestamps) := extractValues rest
      let (value, timestamp) :=
        match point with
        | .record v t => (v, t)
        | .scalar v => (some v, none)
      match value with
      | some (.num x) => (x :: values, timestamp :: timestamps)
      | some .nonNumeric => (values, timestamps)   -- skipped with a warning
      | none => (values, timestamps)

/-- The masking marker `"***MASKED***"`. -/
def MASKED : String := "***MASKED***"

/-- `DataProcessor.mask_sensitive_fields` (`app/core/processor.py`,
lines 61-90), at the record abstraction the Extractor reads (only the
`value` and `timestamp` fields of a mapping are observable downstream):
a field present in the record and named in `fields_to_mask` is replaced
by the marker string, which is not numeric-convertible; non-mapping
records pass through unchanged, and an empty (falsy) field list returns
the data as is. -/
def maskSensitiveFields (data : List RawPoint) (fieldsToMask : List String) :
    List RawPoint :=
  if fieldsToMask.isEmpty then data
  else
    data.map fun item =>
      match item with
      | .scalar v => .scalar v
      | .record v t =>
          .record (if "value" ∈ fieldsToMask ∧ v.isSome then some .nonNumeric else v)
            (if "timestamp" ∈ fieldsToMask ∧ t.isSome then some MASKED else t)

/-- The Validator's failure taxonomy (spec §7): all four `ValueError`
messages of `validate_data`, grouped as `EmptyData`, `InsufficientData`
and `NonFiniteData` (the latter split by which message fires). -/
inductive ValidationError where
  | emptyData          -- "E002: No valid numeric values found in data"
  | insufficientData   -- "E002: Insufficient data points ... (minimum 3 required)"
  | nanData            -- "E002: Data contains NaN values"
  | infData            -- "E002: Data contains infinite values"
deriving DecidableEq, Repr

/-- The spec's `NonFiniteData` class: either of the two non-finite
messages. -/
def ValidationError.isNonFinite : ValidationError → Bool
  | .nanData => true
  | .infData => true
  | _ => false

/-- `DataProcessor.validate_data` (`app/core/processor.py`, lines 92-112):
the four checks in source order. -/
def validateData (values : List FloatVal) : Except ValidationError Unit :=
  if values.length = 0 then .error .emptyData
  else if values.length < 3 then .error .insufficientData
  else if values.any FloatVal.isNan then .error .nanData
  else if values.any FloatVal.isInf then .error .infData
  else .ok ()

/-- The `GenerateRequest` of `app/models/schemas.py`, restricted to what
the processor reads (`filters` is never touched). -/
structure GenerateRequest where
  dataset : String
  period : String
  data : List RawPoint

/-- The `StatisticalPackage` of `app/models/schemas.py`. -/
structure StatisticalPackage where
  statistics : Statistics
  trends : Trends
  correlations : Option (List (String × PairCorrelation))
  outliers : List Outlier
  distribution_type : String
  normality_test_p_value : ℝ
  is_normal_distribution : Bool

/-- A failure of `process_request` / `process_multi_dataset`: the
validation `ValueError`s re-raised as is.  (The `E003` wrapper for other
exceptions is unreachable in the embedding, whose engine is total.) -/
inductive ProcessError where
  | validation (e : ValidationError)
deriving DecidableEq

/-- `DataProcessor.process_request` (`app/core/processor.py`,
lines 114-180).  The `masking_fields` parameter is accepted — and, as in
the source, never read.  After validation succeeds every extracted value
is finite, so `FloatVal.toRat` loses nothing. -/
noncomputable def processRequest (shapiro : List ℚ → ℝ)
    (request : GenerateRequest)
    (maskingFields : Option (List String) := none) :
    Except ProcessError StatisticalPackage :=
  let values := (extractValues request.data).1
  let timestamps := (extractValues request.data).2
  match validateData values with
  | .error e => .error (.validation e)
  | .ok _ =>
      let data := values.map FloatVal.toRat
      let statistics := calculateDescriptiveStatistics data
      let trends := analyzeTrends data
      let outliers := detectOutliers data (some timestamps)
      let nt := testNormality shapiro data
      let distribution_type := classifyDistribution data nt.1
      .ok { statistics := statistics
            trends := trends
            correlations := none     -- single dataset, no correlations
            outliers := outliers
            distribution_type := distribution_type
            normality_test_p_value := nt.1
            is_normal_distribution := nt.2 }

/-- The fully-assembled package of a validated request: the `ok` branch of
`process_request`, named for the proofs below. -/
noncomputable def assembledPackage (shapiro : List ℚ → ℝ)
    (request : GenerateRequest) : StatisticalPackage :=
  let data := (extractValues request.data).1.map FloatVal.toRat
  { statistics := calculateDescriptiveStatistics data
    trends := analyzeTrends data
    correlations := none
    outliers := detectOutliers data (some (extractValues request.data).2)
    distribution_type := classifyDistribution data (testNormality shapiro data).1
    normality_test_p_value := (testNormality shapiro data).1
    is_normal_distribution := (testNormality shapiro data).2 }

/-- The result dictionary of `process_multi_dataset`. -/
structure MultiResult where
  packages : List (String × StatisticalPackage)
  cross_correlations : List (String × PairCorrelation)

/-- The per-dataset loop body of `process_multi_dataset`: extract,
validate, record the array, generate the individual package.  The first
failure aborts the whole call (`Except` short-circuits exactly as the
raised `ValueError` does). -/
noncomputable def processOneDataset (shapiro : List ℚ → ℝ)
    (acc : List (String × List ℚ) × List (String × StatisticalPackage))
    (entry : String × List RawPoint) :
    Except ProcessError
      (List (String × List ℚ) × List (String × StatisticalPackage)) := do
  let values := (extractValues entry.2).1
  match validateData values with
  | .error e => .error (.validation e)
  | .ok _ =>
      let request : GenerateRequest :=
        { dataset := entry.1, period := "multi", data := entry.2 }
      match processRequest shapiro request with
      | .error e => .error e
      | .ok package =>
          .ok (acc.1 ++ [(entry.1, values.map FloatVal.toRat)],
               acc.2 ++ [(entry.1, package)])

/-- `DataProcessor.process_multi_dataset` (`app/core/processor.py`,
lines 182-223). -/
noncomputable def processMultiDataset (shapiro : List ℚ → ℝ)
    (pearsonr spearmanr : List ℚ → List ℚ → ℝ × ℝ)
    (datasets : List (String × List RawPoint)) :
    Except ProcessError MultiResult := do
  let (dataset_arrays, packages) ←
    datasets.foldlM (processOneDataset shapiro) ([], [])
  let correlations := calculateCorrelations pearsonr spearmanr dataset_arrays
  .ok { packages := packages, cross_correlations := correlations }

/-! ## Helper lemmas -/

theorem sampleVar_nonneg (l : List ℚ) : 0 ≤ sampleVar l := by
  rcases l with _ | ⟨x, xs⟩
  · simp [sampleVar]
  · refine div_nonneg (List.sum_nonneg ?_) ?_
    · intro a ha
      obtain ⟨y, -, rfl⟩ := List.mem_map.mp ha
      positivity
    · have : (1 : ℚ) ≤ ((x :: xs).length : ℚ) := by
        exact_mod_cast Nat.succ_le_of_lt (List.length_pos_of_ne_nil (by simp))
      linarith

theorem sampleStd_nonneg (l : List ℚ) : 0 ≤ sampleStd l := Real.sqrt_nonneg _

theorem sampleStd_sq (l : List ℚ) : sampleStd l ^ 2 = (sampleVar l : ℝ) :=
  Real.sq_sqrt (by exact_mod_cast sampleVar_nonneg l)

theorem sampleStd_eq_zero_iff (l : List ℚ) :
    sampleStd l = 0 ↔ sampleVar l = 0 := by
  rw [sampleStd, Real.sqrt_eq_zero (by exact_mod_cast sampleVar_nonneg l)]
  exact_mod_cast Rat.cast_eq_zero (α := ℝ)

theorem npMin_le_of_mem {l : List ℚ} {x : ℚ} (hx : x ∈ l) : npMin l ≤ x := by
  have h := List.minimum_le_of_mem' hx
  rw [npMin, List.getD_min?_eq_untop'_minimum]
  rcases hm : l.minimum with - | m
  · rw [hm] at h
    exact absurd (top_le_iff.mp h) (by simp)
  · rw [hm] at h
    have hu : WithTop.untop' 0 (some m) = m := rfl
    rw [hu]
    exact WithTop.coe_le_coe.mp h

theorem le_npMax_of_mem {l : List ℚ} {x : ℚ} (hx : x ∈ l) : x ≤ npMax l := by
  have h := List.le_maximum_of_mem' hx
  rw [npMax, List.getD_max?_eq_unbot'_maximum]
  rcases hm : l.maximum with - | m
  · rw [hm] at h
    exact absurd (le_bot_iff.mp h) (by simp)
  · rw [hm] at h
    have hu : WithBot.unbot' 0 (some m) = m := rfl
    rw [hu]
    exact WithBot.coe_le_coe.mp h

/-- C10: the `masking_fields` argument of `process_request` has no effect:
for every request and every masking-fields list the result is the one of
the call without masking fields, since `mask_sensitive_fields` is never
invoked on the processing path. -/
theorem processRequest_ignores_masking (shapiro : List ℚ → ℝ)
    (request : GenerateRequest) (maskingFields : Option (List String)) :
    processRequest shapiro request maskingFields =
      processRequest shapiro request none := rfl

/-- C8: `validate_data` fails with `EmptyData` exactly on length 0, with
`InsufficientData` exactly on non-zero length below 3 (so every 2-element
sample fails with `InsufficientData`, every 0-element sample with
`EmptyData`), with a `NonFiniteData` error exactly when the length is at
least 3 and some value is NaN or ±Infinity, and succeeds exactly on
samples of length at least 3 with every value finite; and below 3
extracted points `process_request` fails before any statistic is
computed. -/
theorem validate_data_contract (v : List FloatVal) :
    (validateData v = .error .emptyData ↔ v.length = 0) ∧
    (validateData v = .error .insufficientData ↔
        v.length ≠ 0 ∧ v.length < 3) ∧
    ((∃ e, validateData v = .error e ∧ e.isNonFinite = true) ↔
        3 ≤ v.length ∧ ∃ x ∈ v, x.isNan = true ∨ x.isInf = true) ∧
    (validateData v = .ok () ↔
        3 ≤ v.length ∧ ∀ x ∈ v, x.isNan = false ∧ x.isInf = false) ∧
    (∀ (shapiro : List ℚ → ℝ) (r : GenerateRequest)
        (mf : Option (List String)),
       (extractValues r.data).1.length < 3 →
         ∃ e, processRequest shapiro r mf = .error e) := by
  refine ⟨?_, ?_, ?_, ?_, ?_⟩
  · rw [validateData]
    split_ifs with h0 h3 hn hi <;>
      simp_all [ValidationError.isNonFinite]
  · rw [validateData]
    split_ifs with h0 h3 hn hi <;>
      simp_all [ValidationError.isNonFinite] <;> omega
  · rw [validateData]
    split_ifs with h0 h3 hn hi
    · simp_all [ValidationError.isNonFinite]
    · simp only [ValidationError.isNonFinite]
      constructor
      · rintro ⟨e, he, hf⟩
        cases he
        exact absurd hf (by simp)
      · rintro ⟨h3', -⟩
        omega
    · simp only [List.any_eq_true] at hn
      obtain ⟨x, hx, hxn⟩ := hn
      constructor
      · intro _
        exact ⟨by omega, x, hx, Or.inl hxn⟩
      · intro _
        exact ⟨.nanData, rfl, rfl⟩
    · simp only [List.any_eq_true] at hi
      obtain ⟨x, hx, hxi⟩ := hi
      constructor
      · intro _
        exact ⟨by omega, x, hx, Or.inr hxi⟩
      · intro _
        exact ⟨.infData, rfl, rfl⟩
    · simp only [List.any_eq_true, not_exists, not_and] at hn hi
      constructor
      · rintro ⟨e, he, -⟩
        exact absurd he (by simp)
      · rintro ⟨-, x, hx, hx' | hx'⟩
        · exact absurd hx' (by simpa using hn x hx)
        · exact absurd hx' (by simpa using hi x hx)
  · rw [validateData]
    split_ifs with h0 h3 hn hi
    · simp_all
    · simp only [List.length_eq_zero] at h0
      simp_all
    · simp only [List.any_eq_true] at hn
      obtain ⟨x, hx, hxn⟩ := hn
      simp only [false_iff, not_and, reduceCtorEq]
      intro _ hall
      exact absurd hxn (by simpa using (hall x hx).1)
    · simp only [List.any_eq_true] at hi
      obtain ⟨x, hx, hxi⟩ := hi
      simp only [false_iff, not_and, reduceCtorEq]
      intro _ hall
      exact absurd hxi (by simpa using (hall x hx).2)
    · simp only [List.any_eq_true, not_exists, not_and] at hn hi
      constructor
      · intro _
        refine ⟨by omega, fun x hx => ⟨?_, ?_⟩⟩
        · simpa using hn x hx
        · simpa using hi x hx
      · intro _
        rfl
  · intro shapiro r mf hlen
    rw [processRequest]
    rcases hv : validateData (extractValues r.data).1 with e | u
    · exact ⟨.validation e, by simp [hv]⟩
    · rw [validateData] at hv
      split_ifs at hv <;> omega

/-- C5: `analyze_trends` reports a day-over-day percent change, equal to
`(last - prev) / prev * 100`, exactly when the sample has at least 2
points and the second-to-last value is non-zero; and a month-over-month
percent change, `(recent - prev) / prev * 100` between the mean of the
last 30 points and the mean of points `[n-60, n-30)`, exactly when the
sample has at least 60 points and that previous mean is non-zero.  In
all other cases the respective field is `None`. -/
theorem analyze_trends_pct_changes (d : List ℚ) :
    (∀ v : ℚ, (analyzeTrends d).day_over_day_pct = some v ↔
       2 ≤ d.length ∧ d.getD (d.length - 2) 0 ≠ 0 ∧
         v = (d.getD (d.length - 1) 0 - d.getD (d.length - 2) 0) /
               d.getD (d.length - 2) 0 * 100) ∧
    (∀ v : ℚ, (analyzeTrends d).month_over_month_pct = some v ↔
       60 ≤ d.length ∧ npMean ((d.drop (d.length - 60)).take 30) ≠ 0 ∧
         v = (npMean (d.drop (d.length - 30)) -
               npMean ((d.drop (d.length - 60)).take 30)) /
               npMean ((d.drop (d.length - 60)).take 30) * 100) := by
  have hd : (analyzeTrends d).day_over_day_pct =
      (if 2 ≤ d.length then
        (if d.getD (d.length - 2) 0 ≠ 0 then
          some ((d.getD (d.length - 1) 0 - d.getD (d.length - 2) 0) /
            d.getD (d.length - 2) 0 * 100)
         else none)
       else none) := rfl
  have hm : (analyzeTrends d).month_over_month_pct =
      (if 30 ≤ d.length then
        (if 60 ≤ d.length then
          (if npMean ((d.drop (d.length - 60)).take 30) ≠ 0 then
            some ((npMean (d.drop (d.length - 30)) -
                npMean ((d.drop (d.length - 60)).take 30)) /
              npMean ((d.drop (d.length - 60)).take 30) * 100)
           else none)
         else none)
       else none) := rfl
  constructor
  · intro v
    rw [hd]
    split_ifs with h2 hp
    · simp only [Option.some_inj]
      constructor
      · intro hv
        exact ⟨h2, hp, hv.symm⟩
      · rintro ⟨-, -, rfl⟩
        rfl
    · simp only [reduceCtorEq, false_iff, not_and]
      intro _ hp'
      exact absurd hp' (by simpa using hp)
    · simp only [reduceCtorEq, false_iff, not_and]
      intro h2'
      exact absurd h2' h2
  · intro v
    rw [hm]
    split_ifs with h30 h60 hp
    · simp only [Option.some_inj]
      constructor
      · intro hv
        exact ⟨h60, hp, hv.symm⟩
      · rintro ⟨-, -, rfl⟩
        rfl
    · simp only [reduceCtorEq, false_iff, not_and]
      intro _ hp'
      exact absurd hp' (by simpa using hp)
    · simp only [reduceCtorEq, false_iff, not_and]
      intro h60'
      exact absurd h60' h60
    · simp only [reduceCtorEq, false_iff, not_and]
      intro h60'
      exact absurd (by omega : 30 ≤ d.length) h30

/-- C6: `analyze_trends` reports the forecast as the fitted OLS model
evaluated at index `n`, and reports direction `"stable"` exactly when
`|slope| < 0.01 * mean(data)`, `"upward"` exactly when that fails and
`slope > 0`, and `"downward"` exactly when that fails and `slope ≤ 0`;
in particular a zero or negative mean makes the stability threshold zero
or negative, so `"stable"` is then impossible. -/
theorem analyze_trends_forecast_direction (d : List ℚ) :
    (analyzeTrends d).forecast_next_period =
        olsIntercept d + olsSlope d * d.length ∧
    ((analyzeTrends d).trend_direction = "stable" ↔
        |olsSlope d| < 1 / 100 * npMean d) ∧
    ((analyzeTrends d).trend_direction = "upward" ↔
        ¬|olsSlope d| < 1 / 100 * npMean d ∧ 0 < olsSlope d) ∧
    ((analyzeTrends d).trend_direction = "downward" ↔
        ¬|olsSlope d| < 1 / 100 * npMean d ∧ olsSlope d ≤ 0) ∧
    (npMean d ≤ 0 → (analyzeTrends d).trend_direction ≠ "stable") := by
  have hdir : (analyzeTrends d).trend_direction =
      (if |olsSlope d| < 1 / 100 * npMean d then "stable"
       else if 0 < olsSlope d then "upward" else "downward") := rfl
  refine ⟨rfl, ?_, ?_, ?_, ?_⟩
  · rw [hdir]
    split_ifs with h1 h2 <;> simp_all
  · rw [hdir]
    split_ifs with h1 h2 <;> simp_all
  · rw [hdir]
    split_ifs with h1 h2 <;> simp_all <;> linarith
  · intro hm hstable
    rw [hdir] at hstable
    split_ifs at hstable with h1 h2
    · have h0 : (0 : ℚ) ≤ |olsSlope d| := abs_nonneg _
      nlinarith
    · exact absurd hstable (by simp)
    · exact absurd hstable (by simp)

/-- C4: `test_normality` returns p-value 1.0 and `is_normal = false` below
3 points, and otherwise returns the Shapiro-Wilk p-value (the abstracted
`shapiro`) with `is_normal` true exactly when that p-value exceeds 0.05;
and `classify_distribution` scans the spec's priority-ordered rules for
the first match, with default label `"non_normal"`. -/
theorem normality_and_classification (shapiro : List ℚ → ℝ) (d : List ℚ)
    (p : ℝ) :
    (d.length < 3 → testNormality shapiro d = (1, false)) ∧
    (3 ≤ d.length → (testNormality shapiro d).1 = shapiro d ∧
        ((testNormality shapiro d).2 = true ↔ (5 : ℝ) / 100 < shapiro d)) ∧
    classifyDistribution d p = specClassify d p := by
  refine ⟨?_, ?_, ?_⟩
  · intro h3
    rw [testNormality, if_pos h3]
  · intro h3
    rw [testNormality, if_neg (by omega)]
    exact ⟨rfl, by simp⟩
  · rw [classifyDistribution, specClassify]
    simp only [firstLabel]

theorem range_filter_lt (n i : ℕ) :
    (List.range n).filter (fun j => decide (i < j)) =
      (List.range n).drop (i + 1) := by
  induction n with
  | zero => rfl
  | succ n ih =>
      rw [List.range_succ, List.filter_append, List.drop_append_eq_append_drop,
        ih, List.length_range]
      by_cases h : i < n
      · have h0 : i + 1 - n = 0 := by omega
        simp [h0, List.filter_cons, h]
      · have h0 : i + 1 - n = (i - n) + 1 := by omega
        simp [h0, List.filter_cons, h]

theorem pairIndices_eq_flatMap (n : ℕ) :
    pairIndices n =
      (List.range n).flatMap fun i =>
        ((List.range n).drop (i + 1)).map (Prod.mk i) := by
  rw [pairIndices]
  have hprod : List.product (List.range n) (List.range n) =
      (List.range n).flatMap fun i =>
        (List.range n).map (Prod.mk i) := rfl
  rw [hprod, List.filter_flatMap]
  refine List.flatMap_congr ?_
  intro i _
  rw [List.filter_map, ← range_filter_lt]
  exact congrArg _ (List.filter_congr (fun j _ => rfl))

theorem pairIndices_length (n : ℕ) : (pairIndices n).length = n.choose 2 := by
  rw [pairIndices_eq_flatMap, List.length_flatMap]
  have hlen : (List.map (List.length ∘ fun i =>
      ((List.range n).drop (i + 1)).map (Prod.mk i)) (List.range n)) =
      (List.range n).map fun i => n - (i + 1) := by
    refine List.map_congr_left ?_
    intro i _
    simp
  rw [hlen]
  have h1 : ((List.range n).map (fun i => n - (i + 1))).sum =
      ∑ i ∈ Finset.range n, (n - (i + 1)) := rfl
  rw [h1]
  have hco : ∀ i ∈ Finset.range n, n - (i + 1) = n - 1 - i := by
    intro i _
    omega
  rw [Finset.sum_congr rfl hco,
    Finset.sum_range_reflect (fun i => i) n, Nat.choose_two_right]
  have h3 := Finset.sum_range_id_mul_two n
  omega

theorem foldl_dictInsert_append {α : Type _} (l : List (String × α)) :
    ∀ acc : List (String × α),
      (∀ kv ∈ l, ∀ p ∈ acc, p.1 ≠ kv.1) → (l.map Prod.fst).Nodup →
      l.foldl (fun m kv => dictInsert m kv.1 kv.2) acc = acc ++ l := by
  induction l with
  | nil =>
      intro acc _ _
      simp
  | cons kv rest ih =>
      intro acc hdisj hnodup
      have hany : acc.any (fun p => decide (p.1 = kv.1)) = false := by
        rw [List.any_eq_false]
        intro p hp
        simpa using hdisj kv (by simp) p hp
      have hstep : dictInsert acc kv.1 kv.2 = acc ++ [kv] := by
        rw [dictInsert, if_neg (by simp [hany])]
      have hhead : kv.1 ∉ rest.map Prod.fst :=
        (List.nodup_cons.mp (by simpa using hnodup)).1
      rw [List.foldl_cons, hstep, ih (acc ++ [kv]) ?_ ?_]
      · simp
      · intro x hx p hp
        rcases List.mem_append.mp hp with h | h
        · exact hdisj x (by simp [hx]) p h
        · have hpkv : p = kv := by simpa using h
          subst hpkv
          intro hcontra
          exact hhead (hcontra ▸ List.mem_map_of_mem Prod.fst hx)
      · exact (List.nodup_cons.mp (by simpa using hnodup)).2

/-- C7 (amended): `calculate_correlations` returns the empty map on fewer
than 2 datasets; on at least 2 it assigns, in first-seen (lexicographic)
order of the unordered index pairs `i < j`, one dict entry per pair with
key `"{nameA}_vs_{nameB}"`, both series truncated to the shorter length
from index 0, Pearson and Spearman coefficient and p-value, and
significance `p < 0.05` — a later pair overwriting an earlier entry when
both produce the same key; when all pair keys are distinct the result
has exactly one entry per unordered pair, `n choose 2` in all. -/
theorem correlations_pairs_dict (P S : List ℚ → List ℚ → ℝ × ℝ)
    (ds : List (String × List ℚ)) :
    (ds.length < 2 → calculateCorrelations P S ds = []) ∧
    (2 ≤ ds.length → calculateCorrelations P S ds =
       (pairEntries P S ds).foldl
         (fun m kv => dictInsert m kv.1 kv.2) []) ∧
    (2 ≤ ds.length → ((pairEntries P S ds).map Prod.fst).Nodup →
       calculateCorrelations P S ds = pairEntries P S ds ∧
       (calculateCorrelations P S ds).length = ds.length.choose 2) := by
  have hentries : ((List.range ds.length).flatMap fun i =>
      ((List.range ds.length).drop (i + 1)).map fun j =>
        corrEntry P S ds i j) = pairEntries P S ds := by
    rw [pairEntries, pairIndices_eq_flatMap, List.map_flatMap]
    refine List.flatMap_congr ?_
    intro i _
    rw [List.map_map]
    rfl
  have hfold : 2 ≤ ds.length → calculateCorrelations P S ds =
      (pairEntries P S ds).foldl
        (fun m kv => dictInsert m kv.1 kv.2) [] := by
    intro h2
    rw [calculateCorrelations, if_neg (by omega), ← hentries]
    rfl
  refine ⟨?_, hfold, ?_⟩
  · intro h2
    rw [calculateCorrelations, if_pos h2]
  · intro h2 hnodup
    have heq : calculateCorrelations P S ds = pairEntries P S ds := by
      rw [hfold h2, foldl_dictInsert_append (pairEntries P S ds) []
        (by simp) hnodup]
      simp
    refine ⟨heq, ?_⟩
    rw [heq, pairEntries, List.length_map, pairIndices_length]

/-- C7 counterexample: with the four datasets named `"a_vs"`, `"b"`,
`"a"`, `"vs_b"`, the pairs `("a_vs", "b")` and `("a", "vs_b")` both
produce the dict key `"a_vs_vs_b"`, so the program returns 5 entries,
not one entry per unordered pair (`4 choose 2 = 6`), refuting the claim
as stated. -/
theorem correlations_duplicate_key_counterexample :
    2 ≤ ([("a_vs", [1, 2, 3]), ("b", [1, 2, 3]),
          ("a", [1, 2, 3]), ("vs_b", [1, 2, 3])] :
         List (String × List ℚ)).length ∧
    (calculateCorrelations (fun _ _ => ((0 : ℝ), (0 : ℝ)))
        (fun _ _ => ((0 : ℝ), (0 : ℝ)))
        [("a_vs", [1, 2, 3]), ("b", [1, 2, 3]),
         ("a", [1, 2, 3]), ("vs_b", [1, 2, 3])]).length ≠
      ([("a_vs", [1, 2, 3]), ("b", [1, 2, 3]),
        ("a", [1, 2, 3]), ("vs_b", [1, 2, 3])] :
       List (String × List ℚ)).length.choose 2 := by
  constructor
  · norm_num
  · intro hcontra
    have h5 : (calculateCorrelations (fun _ _ => ((0 : ℝ), (0 : ℝ)))
        (fun _ _ => ((0 : ℝ), (0 : ℝ)))
        [("a_vs", [1, 2, 3]), ("b", [1, 2, 3]),
         ("a", [1, 2, 3]), ("vs_b", [1, 2, 3])]).length = 5 := rfl
    rw [h5] at hcontra
    exact absurd hcontra (by decide)

/-- C2 (amended): `calculate_descriptive_statistics` computes variance and
standard deviation with the sample (n-1 denominator) formulas — so that
whenever the population variance is non-zero the reported variance
differs from it — and computes skewness and kurtosis with the
Fisher-Pearson definitions *without* bias adjustment (the biased `g1`
and `g2`, scipy's defaults), reporting kurtosis as excess kurtosis. -/
theorem descriptive_statistics_formulas (d : List ℚ) (h2 : 2 ≤ d.length) :
    (calculateDescriptiveStatistics d).variance * ((d.length : ℚ) - 1) =
        (d.map (fun x => (x - npMean d) ^ 2)).sum ∧
    (calculateDescriptiveStatistics d).std_dev ^ 2 =
        ((calculateDescriptiveStatistics d).variance : ℝ) ∧
    sampleVar d = (d.length : ℚ) / ((d.length : ℚ) - 1) * popVar d ∧
    (popVar d ≠ 0 → (calculateDescriptiveStatistics d).variance ≠ popVar d) ∧
    (calculateDescriptiveStatistics d).skewness =
        (centralMoment d 3 : ℝ) / Real.sqrt (centralMoment d 2) ^ 3 ∧
    (calculateDescriptiveStatistics d).kurtosis =
        centralMoment d 4 / centralMoment d 2 ^ 2 - 3 := by
  have hn : (2 : ℚ) ≤ (d.length : ℚ) := by exact_mod_cast h2
  have hn1 : ((d.length : ℚ) - 1) ≠ 0 := ne_of_gt (by linarith)
  have hn0 : ((d.length : ℚ)) ≠ 0 := ne_of_gt (by linarith)
  have hvar : (calculateDescriptiveStatistics d).variance = sampleVar d := rfl
  have hratio : sampleVar d = (d.length : ℚ) / ((d.length : ℚ) - 1) * popVar d := by
    rw [sampleVar, popVar, centralMoment]
    field_simp
    ring
  refine ⟨?_, sampleStd_sq d, hratio, ?_, rfl, rfl⟩
  · rw [hvar, sampleVar, div_mul_cancel₀ _ hn1]
  · intro hpop heq
    rw [hvar, hratio] at heq
    apply hpop
    have h1 : ((d.length : ℚ) / ((d.length : ℚ) - 1) - 1) * popVar d = 0 := by
      rw [sub_mul, heq, one_mul, sub_self]
    rcases mul_eq_zero.mp h1 with h | h
    · exfalso
      have : (d.length : ℚ) / ((d.length : ℚ) - 1) = 1 := by linarith
      rw [div_eq_one_iff_eq hn1] at this
      linarith
    · exact h

/-- C2 counterexample: on the sample `[0, 0, 0, 1]` the engine's kurtosis
is the biased `g2 = -2/3`, not the bias-adjusted value `G2 = 4`, so the
engine does not use the bias-adjusted definition the claim states. -/
theorem kurtosis_not_bias_adjusted :
    (calculateDescriptiveStatistics [0, 0, 0, 1]).kurtosis ≠
      adjustedKurtosis [0, 0, 0, 1] := by
  have h1 : (calculateDescriptiveStatistics [0, 0, 0, 1]).kurtosis =
      kurtosis [0, 0, 0, 1] := rfl
  rw [h1]
  norm_num [kurtosis, adjustedKurtosis, centralMoment, npMean]

/-- C2 witness: the amended theorem applied to the concrete sample
`[1, 2, 4]`. -/
theorem descriptive_statistics_formulas_witness :
    (calculateDescriptiveStatistics [1, 2, 4]).std_dev ^ 2 =
      ((calculateDescriptiveStatistics [1, 2, 4]).variance : ℝ) :=
  (descriptive_statistics_formulas [1, 2, 4] (by norm_num)).2.1

theorem filterMap_if_eq_filter_map {α β : Type _} (cond : α → Prop)
    [inst : ∀ a, Decidable (cond a)] (f : α → β) (l : List α) :
    (l.filterMap fun a => if cond a then some (f a) else none) =
      (l.filter fun a => decide (cond a)).map f := by
  induction l with
  | nil => rfl
  | cons x xs ih =>
      by_cases h : cond x <;>
        simp [List.filterMap_cons, List.filter_cons, h, ih]

theorem timestampAt_eq (ts : Option (List (Option String))) (idx : ℕ) :
    timestampAt ts idx =
      (match ts with
       | some t => if idx < t.length then t.getD idx none else none
       | none => none) := by
  rcases ts with - | t
  · rfl
  · show (if ¬t.isEmpty ∧ idx < t.length then t.getD idx none else none) =
        (if idx < t.length then t.getD idx none else none)
    by_cases h : idx < t.length
    · have hne : ¬t.isEmpty := by
        rw [List.isEmpty_iff_length_eq_zero]
        omega
      rw [if_pos ⟨hne, h⟩, if_pos h]
    · rw [if_neg (by tauto), if_neg h]

open Classical in
/-- C3: `detect_outliers` returns the empty list when the sample standard
deviation is exactly zero; otherwise it returns, in ascending index
order, exactly the points whose z-score `(x - mean) / std` exceeds 3.0
in absolute value, each entry preserving the original index (and, the
two thresholds being equal, flagged extreme), and carrying the timestamp
at that index when timestamps were supplied and the index is in range,
the timestamp being absent otherwise. -/
theorem detect_outliers_spec (d : List ℚ)
    (ts : Option (List (Option String))) :
    detectOutliers d ts =
      (if sampleStd d = 0 then []
       else
         (d.enum.filter fun p => decide ((3 : ℝ) < |zScore d p.2|)).map
           fun p =>
             { index := p.1
               value := p.2
               z_score := zScore d p.2
               is_extreme := true
               timestamp :=
                 match ts with
                 | some t => if p.1 < t.length then t.getD p.1 none else none
                 | none => none }) := by
  have hdef : detectOutliers d ts =
      (if sampleStd d = 0 then []
       else
         d.enum.filterMap fun p =>
           if (outlierThreshold : ℝ) < |zScore d p.2| then
             some { index := p.1
                    value := p.2
                    z_score := zScore d p.2
                    is_extreme :=
                      decide ((extremeThreshold : ℝ) < |zScore d p.2|)
                    timestamp := timestampAt ts p.1 }
           else none) := rfl
  rw [hdef]
  split_ifs with h
  · rfl
  · rw [filterMap_if_eq_filter_map
      (fun p : ℕ × ℚ => (outlierThreshold : ℝ) < |zScore d p.2|)]
    have hth : ∀ p : ℕ × ℚ,
        ((outlierThreshold : ℝ) < |zScore d p.2|) =
          ((3 : ℝ) < |zScore d p.2|) := by
      intro p
      norm_num [outlierThreshold]
    have hfil : (d.enum.filter fun p =>
          decide ((outlierThreshold : ℝ) < |zScore d p.2|)) =
        (d.enum.filter fun p => decide ((3 : ℝ) < |zScore d p.2|)) := by
      refine List.filter_congr ?_
      intro p _
      refine decide_eq_decide.mpr ?_
      rw [hth p]
    rw [hfil]
    refine List.map_congr_left ?_
    intro p hp
    have hcond : (3 : ℝ) < |zScore d p.2| := by
      have := (List.mem_filter.mp hp).2
      exact of_decide_eq_true this
    have hext : decide ((extremeThreshold : ℝ) < |zScore d p.2|) = true := by
      rw [decide_eq_true_eq]
      have : ((extremeThreshold : ℚ) : ℝ) = 3 := by norm_num [extremeThreshold]
      rw [this]
      exact hcond
    rw [hext, timestampAt_eq]

/-! ## Order properties of the percentile interpolation -/

theorem sortedData_sorted (l : List ℚ) : (sortedData l).Sorted (· ≤ ·) :=
  List.sorted_insertionSort _ l

theorem sortedData_perm (l : List ℚ) : (sortedData l).Perm l :=
  List.perm_insertionSort _ l

theorem sortedData_length (l : List ℚ) : (sortedData l).length = l.length :=
  (sortedData_perm l).length_eq

theorem sortedData_getD_mono (l : List ℚ) {i j : ℕ} (hij : i ≤ j)
    (hj : j < (sortedData l).length) :
    (sortedData l).getD i 0 ≤ (sortedData l).getD j 0 := by
  have hi : i < (sortedData l).length := lt_of_le_of_lt hij hj
  rw [List.getD_eq_getElem _ _ hi, List.getD_eq_getElem _ _ hj]
  have h := (sortedData_sorted l).rel_get_of_le
    (a := ⟨i, hi⟩) (b := ⟨j, hj⟩) (Fin.mk_le_mk.mpr hij)
  simpa using h

theorem sortedData_getD_mem (l : List ℚ) {i : ℕ}
    (hi : i < (sortedData l).length) : (sortedData l).getD i 0 ∈ l := by
  rw [List.getD_eq_getElem _ _ hi]
  exact (sortedData_perm l).mem_iff.mp (List.getElem_mem hi)

theorem pH_nonneg (l : List ℚ) (q : ℚ) (hl : 1 ≤ l.length) (h0 : 0 ≤ q) :
    0 ≤ pH l q := by
  have h1 : (1 : ℚ) ≤ ((sortedData l).length : ℚ) := by
    rw [sortedData_length]
    exact_mod_cast hl
  exact div_nonneg (mul_nonneg (by linarith) h0) (by norm_num)

theorem pH_le (l : List ℚ) (q : ℚ) (hl : 1 ≤ l.length) (h0 : 0 ≤ q)
    (h100 : q ≤ 100) : pH l q ≤ ((sortedData l).length : ℚ) - 1 := by
  have h1 : (1 : ℚ) ≤ ((sortedData l).length : ℚ) := by
    rw [sortedData_length]
    exact_mod_cast hl
  have hc : (0 : ℚ) ≤ ((sortedData l).length : ℚ) - 1 := by linarith
  calc (((sortedData l).length : ℚ) - 1) * q / 100
      ≤ (((sortedData l).length : ℚ) - 1) * 100 / 100 := by
        exact (div_le_div_iff_of_pos_right (by norm_num)).mpr
          (mul_le_mul_of_nonneg_left h100 hc)
    _ = ((sortedData l).length : ℚ) - 1 := by ring

theorem pI_cast (l : List ℚ) (q : ℚ) (hl : 1 ≤ l.length) (h0 : 0 ≤ q) :
    ((pI l q : ℕ) : ℚ) = (⌊pH l q⌋ : ℚ) := by
  have h := Int.toNat_of_nonneg (Int.floor_nonneg.mpr (pH_nonneg l q hl h0))
  rw [pI]
  exact_mod_cast congrArg (fun z : ℤ => (z : ℚ)) h

theorem pI_le (l : List ℚ) (q : ℚ) (hl : 1 ≤ l.length) (h0 : 0 ≤ q)
    (h100 : q ≤ 100) : pI l q ≤ (sortedData l).length - 1 := by
  have hfl : ⌊pH l q⌋ ≤ ((sortedData l).length : ℤ) - 1 := by
    have h2 : pH l q ≤ ((((sortedData l).length : ℤ) - 1 : ℤ) : ℚ) := by
      push_cast
      exact pH_le l q hl h0 h100
    calc ⌊pH l q⌋ ≤ ⌊((((sortedData l).length : ℤ) - 1 : ℤ) : ℚ)⌋ :=
          Int.floor_le_floor h2
      _ = ((sortedData l).length : ℤ) - 1 := Int.floor_intCast _
  have hn : 1 ≤ (sortedData l).length := by
    rw [sortedData_length]
    exact hl
  rw [pI]
  omega

theorem pI_lt (l : List ℚ) (q : ℚ) (hl : 1 ≤ l.length) (h0 : 0 ≤ q)
    (h100 : q ≤ 100) : pI l q < (sortedData l).length := by
  have h := pI_le l q hl h0 h100
  have hn : 1 ≤ (sortedData l).length := by
    rw [sortedData_length]
    exact hl
  omega

theorem pI_le_pH (l : List ℚ) (q : ℚ) (hl : 1 ≤ l.length) (h0 : 0 ≤ q) :
    ((pI l q : ℕ) : ℚ) ≤ pH l q := by
  rw [pI_cast l q hl h0]
  exact Int.floor_le _

theorem pH_lt_pI_add_one (l : List ℚ) (q : ℚ) (hl : 1 ≤ l.length)
    (h0 : 0 ≤ q) : pH l q < ((pI l q : ℕ) : ℚ) + 1 := by
  rw [pI_cast l q hl h0]
  exact Int.lt_floor_add_one _

theorem percentile_eq_interp (l : List ℚ) (q : ℚ) :
    percentile l q =
      (sortedData l).getD (pI l q) 0 +
        (pH l q - ((pI l q : ℕ) : ℚ)) *
          ((sortedData l).getD (pI l q + 1) ((sortedData l).getD (pI l q) 0) -
            (sortedData l).getD (pI l q) 0) := rfl

theorem percentile_lo_le_hi (l : List ℚ) (q : ℚ) :
    (sortedData l).getD (pI l q) 0 ≤
      (sortedData l).getD (pI l q + 1) ((sortedData l).getD (pI l q) 0) := by
  by_cases h : pI l q + 1 < (sortedData l).length
  · have h2 := sortedData_getD_mono l (Nat.le_succ (pI l q)) h
    rw [List.getD_eq_getElem (sortedData l) 0 h] at h2
    rwa [← List.getD_eq_getElem (sortedData l)
      ((sortedData l).getD (pI l q) 0) h] at h2
  · rw [List.getD_eq_default (sortedData l) ((sortedData l).getD (pI l q) 0)
      (by omega : (sortedData l).length ≤ pI l q + 1)]

theorem percentile_bounds (l : List ℚ) (q : ℚ) (hl : 1 ≤ l.length)
    (h0 : 0 ≤ q) :
    (sortedData l).getD (pI l q) 0 ≤ percentile l q ∧
      percentile l q ≤
        (sortedData l).getD (pI l q + 1) ((sortedData l).getD (pI l q) 0) := by
  have hf0 : 0 ≤ pH l q - ((pI l q : ℕ) : ℚ) :=
    sub_nonneg.mpr (pI_le_pH l q hl h0)
  have hf1 : pH l q - ((pI l q : ℕ) : ℚ) ≤ 1 := by
    have := pH_lt_pI_add_one l q hl h0
    linarith
  have hlohi := percentile_lo_le_hi l q
  rw [percentile_eq_interp]
  constructor
  · nlinarith
  · nlinarith

theorem percentile_mono (l : List ℚ) {q₁ q₂ : ℚ} (hl : 1 ≤ l.length)
    (h0 : 0 ≤ q₁) (h12 : q₁ ≤ q₂) (h100 : q₂ ≤ 100) :
    percentile l q₁ ≤ percentile l q₂ := by
  have h20 : 0 ≤ q₂ := le_trans h0 h12
  have h1100 : q₁ ≤ 100 := le_trans h12 h100
  have hh12 : pH l q₁ ≤ pH l q₂ := by
    have h1 : (1 : ℚ) ≤ ((sortedData l).length : ℚ) := by
      rw [sortedData_length]
      exact_mod_cast hl
    exact (div_le_div_iff_of_pos_right (by norm_num)).mpr
      (mul_le_mul_of_nonneg_left h12 (by linarith))
  have hi12 : pI l q₁ ≤ pI l q₂ := by
    rw [pI, pI]
    exact Int.toNat_le_toNat (Int.floor_le_floor hh12)
  rcases Nat.lt_or_ge (pI l q₁) (pI l q₂) with hlt | hge
  · -- distinct interpolation cells: go through the sorted elements between
    have hi2lt : pI l q₂ < (sortedData l).length := pI_lt l q₂ hl h20 h100
    have h1hi : pI l q₁ + 1 < (sortedData l).length := by omega
    have hv1 : percentile l q₁ ≤ (sortedData l).getD (pI l q₁ + 1) 0 := by
      have h := (percentile_bounds l q₁ hl h0).2
      rwa [List.getD_eq_getElem _ _ h1hi,
        ← List.getD_eq_getElem (sortedData l) 0 h1hi] at h
    have hmid : (sortedData l).getD (pI l q₁ + 1) 0 ≤
        (sortedData l).getD (pI l q₂) 0 :=
      sortedData_getD_mono l (by omega) hi2lt
    have hv2 := (percentile_bounds l q₂ hl h20).1
    linarith
  · have heq : pI l q₁ = pI l q₂ := le_antisymm hi12 hge
    rw [percentile_eq_interp l q₁, percentile_eq_interp l q₂, ← heq]
    have hlohi := percentile_lo_le_hi l q₁
    nlinarith

theorem npMin_le_percentile (l : List ℚ) (q : ℚ) (hl : 1 ≤ l.length)
    (h0 : 0 ≤ q) (h100 : q ≤ 100) : npMin l ≤ percentile l q := by
  have hmem : (sortedData l).getD (pI l q) 0 ∈ l :=
    sortedData_getD_mem l (pI_lt l q hl h0 h100)
  have h1 := (percentile_bounds l q hl h0).1
  have h2 := npMin_le_of_mem hmem
  linarith

theorem percentile_le_npMax (l : List ℚ) (q : ℚ) (hl : 1 ≤ l.length)
    (h0 : 0 ≤ q) (h100 : q ≤ 100) : percentile l q ≤ npMax l := by
  have h1 := (percentile_bounds l q hl h0).2
  by_cases h : pI l q + 1 < (sortedData l).length
  · have hmem : (sortedData l).getD (pI l q + 1) 0 ∈ l :=
      sortedData_getD_mem l h
    have h2 := le_npMax_of_mem hmem
    rw [List.getD_eq_getElem _ _ h,
      ← List.getD_eq_getElem (sortedData l) 0 h] at h1
    linarith
  · have hdef : (sortedData l).getD (pI l q + 1)
        ((sortedData l).getD (pI l q) 0) = (sortedData l).getD (pI l q) 0 :=
      List.getD_eq_default _ _ (by omega)
    have hmem : (sortedData l).getD (pI l q) 0 ∈ l :=
      sortedData_getD_mem l (pI_lt l q hl h0 h100)
    have h2 := le_npMax_of_mem hmem
    rw [hdef] at h1
    linarith

/-- C1: for every sample of length at least 3 with nonzero variance,
`calculate_descriptive_statistics` returns `count` equal to the sample
length, ordered quartiles `min ≤ q1 ≤ median ≤ q3 ≤ max`,
`iqr = q3 - q1 ≥ 0`, a nonnegative standard deviation and variance, and
a variance equal to the square of the standard deviation. -/
theorem descriptive_statistics_order (d : List ℚ) (h3 : 3 ≤ d.length)
    (hv : sampleVar d ≠ 0) :
    (calculateDescriptiveStatistics d).count = d.length ∧
    (calculateDescriptiveStatistics d).min ≤
        (calculateDescriptiveStatistics d).q1 ∧
    (calculateDescriptiveStatistics d).q1 ≤
        (calculateDescriptiveStatistics d).median ∧
    (calculateDescriptiveStatistics d).median ≤
        (calculateDescriptiveStatistics d).q3 ∧
    (calculateDescriptiveStatistics d).q3 ≤
        (calculateDescriptiveStatistics d).max ∧
    (calculateDescriptiveStatistics d).iqr =
        (calculateDescriptiveStatistics d).q3 -
          (calculateDescriptiveStatistics d).q1 ∧
    0 ≤ (calculateDescriptiveStatistics d).iqr ∧
    0 ≤ (calculateDescriptiveStatistics d).std_dev ∧
    0 ≤ (calculateDescriptiveStatistics d).variance ∧
    ((calculateDescriptiveStatistics d).variance : ℝ) =
        (calculateDescriptiveStatistics d).std_dev ^ 2 := by
  have hl : 1 ≤ d.length := by omega
  have hmin : (calculateDescriptiveStatistics d).min = npMin d := rfl
  have hq1 : (calculateDescriptiveStatistics d).q1 = percentile d 25 := rfl
  have hmed : (calculateDescriptiveStatistics d).median = percentile d 50 := rfl
  have hq3 : (calculateDescriptiveStatistics d).q3 = percentile d 75 := rfl
  have hmax : (calculateDescriptiveStatistics d).max = npMax d := rfl
  have hiqr : (calculateDescriptiveStatistics d).iqr =
      percentile d 75 - percentile d 25 := rfl
  refine ⟨rfl, ?_, ?_, ?_, ?_, rfl, ?_, ?_, ?_, ?_⟩
  · rw [hmin, hq1]
    exact npMin_le_percentile d 25 hl (by norm_num) (by norm_num)
  · rw [hq1, hmed]
    exact percentile_mono d hl (by norm_num) (by norm_num) (by norm_num)
  · rw [hmed, hq3]
    exact percentile_mono d hl (by norm_num) (by norm_num) (by norm_num)
  · rw [hq3, hmax]
    exact percentile_le_npMax d 75 hl (by norm_num) (by norm_num)
  · rw [hiqr]
    have := @percentile_mono d 25 75 hl
      (by norm_num) (by norm_num) (by norm_num)
    linarith
  · exact sampleStd_nonneg d
  · exact sampleVar_nonneg d
  · exact (sampleStd_sq d).symm

/-- C1 witness: the theorem applied to the concrete sample `[1, 2, 4]`,
whose variance `7/3` is nonzero. -/
theorem descriptive_statistics_order_witness :
    (calculateDescriptiveStatistics [1, 2, 4]).count = 3 :=
  (descriptive_statistics_order [1, 2, 4] (by norm_num)
    (by norm_num [sampleVar, npMean])).1

/-! ## All-or-nothing behaviour of the processing pipeline -/

theorem processRequest_eq (shapiro : List ℚ → ℝ) (r : GenerateRequest)
    (mf : Option (List String)) :
    processRequest shapiro r mf =
      match validateData (extractValues r.data).1 with
      | .error e => .error (.validation e)
      | .ok _ => .ok (assembledPackage shapiro r) := rfl

theorem processOneDataset_eq (shapiro : List ℚ → ℝ)
    (acc : List (String × List ℚ) × List (String × StatisticalPackage))
    (entry : String × List RawPoint) :
    processOneDataset shapiro acc entry =
      match validateData (extractValues entry.2).1 with
      | .error e => .error (.validation e)
      | .ok _ =>
          match processRequest shapiro ⟨entry.1, "multi", entry.2⟩ with
          | .error e => .error e
          | .ok package =>
              .ok (acc.1 ++
                     [(entry.1, (extractValues entry.2).1.map FloatVal.toRat)],
                   acc.2 ++ [(entry.1, package)]) := rfl

theorem processRequest_ok_of_valid (shapiro : List ℚ → ℝ)
    (r : GenerateRequest)
    (h : validateData (extractValues r.data).1 = .ok ()) :
    ∃ pkg, processRequest shapiro r = .ok pkg := by
  refine ⟨assembledPackage shapiro r, ?_⟩
  rw [processRequest_eq shapiro r none, h]

theorem processOneDataset_ok (shapiro : List ℚ → ℝ)
    (acc : List (String × List ℚ) × List (String × StatisticalPackage))
    (entry : String × List RawPoint)
    (h : validateData (extractValues entry.2).1 = .ok ()) :
    ∃ pkg, processRequest shapiro ⟨entry.1, "multi", entry.2⟩ = .ok pkg ∧
      processOneDataset shapiro acc entry =
        .ok (acc.1 ++ [(entry.1, (extractValues entry.2).1.map FloatVal.toRat)],
             acc.2 ++ [(entry.1, pkg)]) := by
  obtain ⟨pkg, hpkg⟩ := processRequest_ok_of_valid shapiro
    ⟨entry.1, "multi", entry.2⟩ (by exact h)
  refine ⟨pkg, hpkg, ?_⟩
  rw [processOneDataset_eq, h, hpkg]

theorem processOneDataset_error (shapiro : List ℚ → ℝ)
    (acc : List (String × List ℚ) × List (String × StatisticalPackage))
    (entry : String × List RawPoint) {err : ValidationError}
    (h : validateData (extractValues entry.2).1 = .error err) :
    processOneDataset shapiro acc entry = .error (.validation err) := by
  rw [processOneDataset_eq, h]

theorem processMulti_fold_ok (shapiro : List ℚ → ℝ)
    (ds : List (String × List RawPoint)) :
    ∀ acc : List (String × List ℚ) × List (String × StatisticalPackage),
      (∀ e ∈ ds, validateData (extractValues e.2).1 = .ok ()) →
      ∃ res, ds.foldlM (processOneDataset shapiro) acc = .ok res ∧
        res.1.map Prod.fst = acc.1.map Prod.fst ++ ds.map Prod.fst ∧
        res.2.map Prod.fst = acc.2.map Prod.fst ++ ds.map Prod.fst ∧
        (∀ x ∈ acc.2, x ∈ res.2) ∧
        (∀ e ∈ ds, ∃ pkg, (e.1, pkg) ∈ res.2 ∧
          processRequest shapiro ⟨e.1, "multi", e.2⟩ = .ok pkg) := by
  induction ds with
  | nil =>
      intro acc _
      exact ⟨acc, rfl, by simp, by simp, fun x hx => hx, by simp⟩
  | cons e rest ih =>
      intro acc hok
      obtain ⟨pkg, hpkg, hone⟩ := processOneDataset_ok shapiro acc e
        (hok e (by simp))
      obtain ⟨res, hres, ha, hp, hsub, hall⟩ := ih
        (acc.1 ++ [(e.1, (extractValues e.2).1.map FloatVal.toRat)],
         acc.2 ++ [(e.1, pkg)])
        (fun x hx => hok x (by simp [hx]))
      refine ⟨res, ?_, ?_, ?_, ?_, ?_⟩
      · rw [List.foldlM_cons, hone]
        exact hres
      · rw [ha]
        simp
      · rw [hp]
        simp
      · intro x hx
        exact hsub x (by simp [hx])
      · intro x hx
        rcases List.mem_cons.mp hx with h | h
        · subst h
          exact ⟨pkg, hsub (x.1, pkg) (by simp), hpkg⟩
        · exact hall x h

theorem processMulti_fold_error (shapiro : List ℚ → ℝ)
    (ds : List (String × List RawPoint)) :
    ∀ acc : List (String × List ℚ) × List (String × StatisticalPackage),
      (∃ e ∈ ds, ∃ err, validateData (extractValues e.2).1 = .error err) →
      ∃ err, ds.foldlM (processOneDataset shapiro) acc = .error err := by
  induction ds with
  | nil =>
      intro acc h
      simp at h
  | cons e rest ih =>
      intro acc h
      rcases hv : validateData (extractValues e.2).1 with err | u
      · refine ⟨.validation err, ?_⟩
        rw [List.foldlM_cons, processOneDataset_error shapiro acc e hv]
        rfl
      · obtain ⟨pkg, -, hone⟩ := processOneDataset_ok shapiro acc e
          (by rcases u with ⟨⟩; exact hv)
        obtain ⟨x, hx, err, herr⟩ := h
        rcases List.mem_cons.mp hx with hh | hh
        · subst hh
          rw [hv] at herr
          exact absurd herr (by simp)
        · obtain ⟨err2, hfold⟩ := ih _ ⟨x, hh, err, herr⟩
          refine ⟨err2, ?_⟩
          rw [List.foldlM_cons, hone]
          exact hfold

theorem processMultiDataset_eq (shapiro : List ℚ → ℝ)
    (P S : List ℚ → List ℚ → ℝ × ℝ) (ds : List (String × List RawPoint)) :
    processMultiDataset shapiro P S ds =
      match ds.foldlM (processOneDataset shapiro) ([], []) with
      | .error e => .error e
      | .ok res =>
          .ok { packages := res.2
                cross_correlations := calculateCorrelations P S res.1 } := by
  rcases hf : ds.foldlM (processOneDataset shapiro) ([], []) with e | res
  · show Except.bind (ds.foldlM (processOneDataset shapiro) ([], [])) _ = _
    rw [hf]
    rfl
  · show Except.bind (ds.foldlM (processOneDataset shapiro) ([], [])) _ = _
    rw [hf]
    rfl

/-- C9: if any one dataset's validation fails, `process_multi_dataset`
fails as a whole; if every dataset validates, it returns a package for
every dataset (keys in order); and every `process_request` call either
fails with a validation error or returns a package with every field
populated from the computed statistics — never a partial package. -/
theorem multi_dataset_all_or_nothing (shapiro : List ℚ → ℝ)
    (P S : List ℚ → List ℚ → ℝ × ℝ) (ds : List (String × List RawPoint)) :
    ((∀ e ∈ ds, validateData (extractValues e.2).1 = .ok ()) →
       ∃ res, processMultiDataset shapiro P S ds = .ok res ∧
         res.packages.map Prod.fst = ds.map Prod.fst ∧
         ∀ e ∈ ds, ∃ pkg, (e.1, pkg) ∈ res.packages ∧
           processRequest shapiro ⟨e.1, "multi", e.2⟩ = .ok pkg) ∧
    ((∃ e ∈ ds, ∃ err, validateData (extractValues e.2).1 = .error err) →
       ∃ err, processMultiDataset shapiro P S ds = .error err) ∧
    (∀ (r : GenerateRequest) (mf : Option (List String)),
       (∃ e, processRequest shapiro r mf = .error (.validation e)) ∨
       (∃ pkg, processRequest shapiro r mf = .ok pkg ∧
          pkg.statistics = calculateDescriptiveStatistics
              ((extractValues r.data).1.map FloatVal.toRat) ∧
          pkg.trends =
              analyzeTrends ((extractValues r.data).1.map FloatVal.toRat) ∧
          pkg.correlations = none ∧
          pkg.outliers = detectOutliers
              ((extractValues r.data).1.map FloatVal.toRat)
              (some (extractValues r.data).2) ∧
          pkg.distribution_type = classifyDistribution
              ((extractValues r.data).1.map FloatVal.toRat)
              (testNormality shapiro
                ((extractValues r.data).1.map FloatVal.toRat)).1 ∧
          pkg.normality_test_p_value = (testNormality shapiro
              ((extractValues r.data).1.map FloatVal.toRat)).1 ∧
          pkg.is_normal_distribution = (testNormality shapiro
              ((extractValues r.data).1.map FloatVal.toRat)).2)) := by
  refine ⟨?_, ?_, ?_⟩
  · intro hok
    obtain ⟨res, hres, -, hp, -, hall⟩ :=
      processMulti_fold_ok shapiro ds ([], []) hok
    refine ⟨{ packages := res.2
              cross_correlations := calculateCorrelations P S res.1 },
            ?_, ?_, ?_⟩
    · rw [processMultiDataset_eq, hres]
    · simpa using hp
    · exact hall
  · intro hfail
    obtain ⟨err, hfold⟩ := processMulti_fold_error shapiro ds ([], []) hfail
    refine ⟨err, ?_⟩
    rw [processMultiDataset_eq, hfold]
  · intro r mf
    rcases hv : validateData (extractValues r.data).1 with e | u
    · left
      refine ⟨e, ?_⟩
      rw [processRequest_eq, hv]
    · right
      refine ⟨assembledPackage shapiro r, ?_, rfl, rfl, rfl, rfl, rfl, rfl, rfl⟩
      rcases u
      rw [processRequest_eq, hv]

end StatBuilder
